import Mathlib

/-!
Shallow embedding of the `allowed-import-aliases` checker.

The embedding follows `src/allowed_import_aliases/parse.py` and
`src/allowed_import_aliases/main.py`:

* `AsName` models the named tuple of the same name; its Python `__eq__`
  compares `other == self.alias`, which resolves to alias-string equality
  both against another `AsName` and against a plain string, and `__hash__`
  hashes the alias only.  `pyEqStrAsName` is the resolved semantics of
  `str == AsName` / `str != AsName` at the call sites of `evaluate`.
* Python `dict` / `set` iteration order is deterministic within a run, so
  mappings are embedded as association lists and sets as lists in iteration
  order; `bindingSetEq` is Python's `Set[str] == Set[AsName]` comparison
  (mutual containment under the alias-only equality above).
* `evaluate`, `evaluate_file`, `format_error_message`, `_validate_args` and
  the policy-building / aggregation parts of `main` are embedded one branch
  per source branch.  Generators are embedded as the list of values they
  yield; the `lazy` early `return` is modelled by the boolean "returned"
  flag threaded through `evalInner` / `evalActuals` / `evalNoAllowed`.
* The import extractor (`ast.parse` plus `get_imports_from_ast`) is an
  external collaborator per the specification; it is passed to
  `evaluate_file` / `mainRun` as an oracle `String → Except String ImportTable`.
-/

/-- One observed import alias occurrence (`AsName` named tuple in
`parse.py`).  The field `alias` is a keyword in Lean, hence `alias_`. -/
structure AsName where
  qualname : String
  alias_ : String
  lineno : Nat
deriving DecidableEq, Repr

/-- Resolved semantics of Python `s == a` for `s : str`, `a : AsName`:
`str.__eq__` returns `NotImplemented`, so `AsName.__eq__(a, s)` runs and
returns `s == a.alias`. -/
def pyEqStrAsName (s : String) (a : AsName) : Bool :=
  s == a.alias_

/-- Resolved semantics of Python `AsName.__eq__` between two `AsName`s:
`self.__eq__(other)` returns `other == self.alias`, which in turn resolves
to `self.alias == other.alias`. -/
def AsName.pyEq (self other : AsName) : Bool :=
  pyEqStrAsName self.alias_ other

/-- Python `AsName.__hash__` is `hash(self.alias)`; the string hash itself
is a runtime parameter, so the embedding is parametric in it. -/
def AsName.pyHash (strHash : String → Nat) (self : AsName) : Nat :=
  strHash self.alias_

/-- Python `f"{allowed_aliases}"` on a non-empty `set` of strings:
`{'a', 'b'}` in iteration order. -/
def pySetRepr (xs : List String) : String :=
  "\x7b" ++ String.intercalate ", " (xs.map (fun s => "'" ++ s ++ "'")) ++ "\x7d"

/-- Embedding of `format_error_message` in `parse.py`.  The allowed-alias
set is a list in iteration order; the Python truthiness test
`if allowed_aliases:` is the emptiness test. -/
def format_error_message (filepath : String) (qualname : String)
    (allowed_aliases : List String) (actual_alias : AsName) : String :=
  let _allowed : String :=
    if allowed_aliases.isEmpty then
      "There are no allowed aliases."
    else
      "The only allowed alias" ++
        (if allowed_aliases.length > 1 then "es are" else " is") ++
        " \x1b[1;32m" ++ pySetRepr allowed_aliases ++ "\x1b[0m"
  (filepath ++ ":" ++ toString actual_alias.lineno ++ ":" ++
    " \x1b[1;34m" ++ qualname ++ "\x1b[0m" ++
    " is aliased as" ++
    " \x1b[1;31m" ++ actual_alias.alias_ ++ "\x1b[0m." ++
    " ") ++ _allowed

/-- The exception type `DisallowedImportAlias(message)`; one value is one
reported Violation. -/
structure DisallowedImportAlias where
  message : String
deriving DecidableEq, Repr

/-- Python `allowed == as_names` between a `Set[str]` and a `Set[AsName]`:
mutual containment, where membership resolves through `AsName.__eq__` /
`__hash__`, i.e. through `pyEqStrAsName`. -/
def bindingSetEq (allowed : List String) (as_names : List AsName) : Bool :=
  allowed.all (fun s => as_names.any (fun b => pyEqStrAsName s b)) &&
  as_names.all (fun b => allowed.any (fun s => pyEqStrAsName s b))

/-- Python `Mapping.get` on the policy association list. -/
def lookupPolicy (m : List (String × List String)) (q : String) :
    Option (List String) :=
  match m with
  | [] => none
  | (k, v) :: rest => if k == q then some v else lookupPolicy rest q

/-- Inner loop of `evaluate` (`for a in allowed: if a != actual: yield ...;
if lazy: return`).  Returns the yielded values and whether the generator
executed `return`. -/
def evalInner (filename qualname : String) (allowedFull : List String)
    (actual : AsName) : List String → Bool →
    List DisallowedImportAlias × Bool
  | [], _ => ([], false)
  | a :: rest, lazy =>
    if pyEqStrAsName a actual then
      evalInner filename qualname allowedFull actual rest lazy
    else if lazy then
      ([⟨format_error_message filename qualname allowedFull actual⟩], true)
    else
      (⟨format_error_message filename qualname allowedFull actual⟩ ::
        (evalInner filename qualname allowedFull actual rest lazy).1,
       (evalInner filename qualname allowedFull actual rest lazy).2)

/-- Middle loop of `evaluate`'s mismatched-set branch
(`for actual in as_names: for a in allowed: ...`). -/
def evalActuals (filename qualname : String) (allowed : List String) :
    List AsName → Bool → List DisallowedImportAlias × Bool
  | [], _ => ([], false)
  | actual :: rest, lazy =>
    if (evalInner filename qualname allowed actual allowed lazy).2 then
      evalInner filename qualname allowed actual allowed lazy
    else
      ((evalInner filename qualname allowed actual allowed lazy).1 ++
        (evalActuals filename qualname allowed rest lazy).1,
       (evalActuals filename qualname allowed rest lazy).2)

/-- Loop of `evaluate`'s absent-or-empty-policy branch (`for actual in
as_names: yield ...; if lazy: return`); the message is built with an empty
allowed set (`allowed_aliases=set()` in the source). -/
def evalNoAllowed (filename qualname : String) :
    List AsName → Bool → List DisallowedImportAlias × Bool
  | [], _ => ([], false)
  | actual :: rest, lazy =>
    if lazy then
      ([⟨format_error_message filename qualname [] actual⟩], true)
    else
      (⟨format_error_message filename qualname [] actual⟩ ::
        (evalNoAllowed filename qualname rest lazy).1,
       (evalNoAllowed filename qualname rest lazy).2)

/-- Embedding of `evaluate` in `parse.py`.  `imports` is the ImportTable in
mapping order, each entry carrying its Bindings in set-iteration order.
`if not allowed` is Python falsiness: absent key or empty set. -/
def evaluate (allowed_aliases : List (String × List String)) :
    List (String × List AsName) → String → Bool → List DisallowedImportAlias
  | [], _, _ => []
  | (qualname, as_names) :: rest, filename, lazy =>
    if as_names.isEmpty then
      evaluate allowed_aliases rest filename lazy
    else
      match lookupPolicy allowed_aliases qualname with
      | none =>
        if (evalNoAllowed filename qualname as_names lazy).2 then
          (evalNoAllowed filename qualname as_names lazy).1
        else
          (evalNoAllowed filename qualname as_names lazy).1 ++
            evaluate allowed_aliases rest filename lazy
      | some allowed =>
        if allowed.isEmpty then
          if (evalNoAllowed filename qualname as_names lazy).2 then
            (evalNoAllowed filename qualname as_names lazy).1
          else
            (evalNoAllowed filename qualname as_names lazy).1 ++
              evaluate allowed_aliases rest filename lazy
        else if bindingSetEq allowed as_names then
          evaluate allowed_aliases rest filename lazy
        else
          if (evalActuals filename qualname allowed as_names lazy).2 then
            (evalActuals filename qualname allowed as_names lazy).1
          else
            (evalActuals filename qualname allowed as_names lazy).1 ++
              evaluate allowed_aliases rest filename lazy

/-- Embedding of `evaluate_file`: run the (external) import extractor, then
`evaluate`; an extraction failure propagates when the generator is
consumed. -/
def evaluate_file
    (extraction : String → Except String (List (String × List AsName)))
    (allowed_aliases : List (String × List String)) (filepath : String)
    (lazy : Bool) : Except String (List DisallowedImportAlias) :=
  match extraction filepath with
  | .error e => .error e
  | .ok imports => .ok (evaluate allowed_aliases imports filepath lazy)

/-- The result-aggregation loop at the end of `main` (`main.py` lines
212-222), over one realized stream per file in input order: `next(problem)`
either raises the extraction failure (`.error`), raises `StopIteration` on
an empty stream — on which the loop executes `break` — or yields the first
violation, after which `exit_code` becomes 1 and the rest of that file's
stream is printed.  Returns the exit code and the printed violations. -/
def mainAggregateLoop (exit_code : Nat) :
    List (Except String (List DisallowedImportAlias)) →
    Except String (Nat × List DisallowedImportAlias)
  | [] => .ok (exit_code, [])
  | problem :: rest =>
    match problem with
    | .error e => .error e
    | .ok [] => .ok (exit_code, [])
    | .ok (p :: qs) =>
      match mainAggregateLoop 1 rest with
      | .error e => .error e
      | .ok (c, out) => .ok (c, (p :: qs) ++ out)

/-- Aggregation entry point: `exit_code` starts at 0. -/
def mainAggregate
    (streams : List (Except String (List DisallowedImportAlias))) :
    Except String (Nat × List DisallowedImportAlias) :=
  mainAggregateLoop 0 streams

/-- One of the two identical blocks of `_validate_args` (the `-t` block and
the `-p` block differ only in the flag name).  The `isinstance` check of the
source is vacuous here because the embedding is typed.  `l = []` cannot be
produced by `argparse` with `nargs=1`, but the source would raise
`IndexError` on `t[0]`, mirrored here. -/
def validateWorkerArg (flag : String) (l : Option (List Int)) :
    Except String (Option Int) :=
  match l with
  | none => .ok none
  | some l' =>
    if l'.length > 1 then
      .error ("-" ++ flag ++ " can only accept one integer argument.")
    else
      match l' with
      | [] => .error "IndexError: list index out of range"
      | x :: _ =>
        if x < 0 then
          .error ("-" ++ flag ++ " cannot take a value less than 0.")
        else .ok (some x)

/-- Embedding of `_validate_args` in `main.py`. -/
def _validate_args (t p : Option (List Int)) :
    Except String (Option Int × Option Int) :=
  if t.isSome && p.isSome then
    .error "-t and -p are mutually exclusive."
  else
    match validateWorkerArg "t" t with
    | .error e => .error e
    | .ok _t =>
      match validateWorkerArg "p" p with
      | .error e => .error e
      | .ok _p => .ok (_t, _p)

/-- Equality of `Except` results is decidable componentwise (not provided
by the library). -/
instance {ε α : Type} [DecidableEq ε] [DecidableEq α] :
    DecidableEq (Except ε α)
  | .error e, .error f =>
    if h : e = f then .isTrue (by rw [h])
    else .isFalse (by intro hc; cases hc; exact h rfl)
  | .error _, .ok _ => .isFalse (by intro hc; cases hc)
  | .ok _, .error _ => .isFalse (by intro hc; cases hc)
  | .ok a, .ok b =>
    if h : a = b then .isTrue (by rw [h])
    else .isFalse (by intro hc; cases hc; exact h rfl)

/-- Python `set.add` order: an already-present alias is kept, a new one is
appended. -/
def listInsert (xs : List String) (y : String) : List String :=
  if xs.contains y then xs else xs ++ [y]

/-- Python `set.update(aliases)`. -/
def listUnion (xs ys : List String) : List String :=
  ys.foldl listInsert xs

/-- `allowed_aliases[qualname].update(aliases)` on the `defaultdict(set)`:
an absent key is appended with a fresh set. -/
def updatePolicy : List (String × List String) → String → List String →
    List (String × List String)
  | [], q, al => [(q, listUnion [] al)]
  | (k, v) :: rest, q, al =>
    if k == q then (k, listUnion v al) :: rest
    else (k, v) :: updatePolicy rest q al

/-- Python `str.strip()` on the characters of the string (whitespace per
`Char.isWhitespace`, which covers the ASCII whitespace the source can
meet in command-line arguments). -/
def pyStrip (s : String) : String :=
  String.mk
    (((s.data.dropWhile Char.isWhitespace).reverse.dropWhile
        Char.isWhitespace).reverse)

/-- Splitting a character list at every character satisfying `p`, keeping
empty fields, as Python `str.split(sep)` does for a one-character `sep`. -/
def splitChars (p : Char → Bool) : List Char → List Char → List String
  | [], acc => [String.mk acc.reverse]
  | c :: cs, acc =>
    if p c then String.mk acc.reverse :: splitChars p cs []
    else splitChars p cs (c :: acc)

/-- Python `str.split(" ")`: split at every single space character,
keeping empty fields. -/
def pySplitOnSpace (s : String) : List String :=
  splitChars (fun c => c == ' ') s.data []

/-- One iteration of the policy loop in `main` (lines 188-190):
`qualname, *aliases = arguments[0].strip().split(" ")`.  An empty
`arguments` list raises `IndexError`; `str.split(" ")` never returns an
empty list. -/
def parseOccurrence (arguments : List String) :
    Except String (String × List String) :=
  match arguments with
  | [] => .error "IndexError: list index out of range"
  | s :: _ =>
    match pySplitOnSpace (pyStrip s) with
    | [] => .error "IndexError: list index out of range"
    | q :: aliases => .ok (q, aliases)

/-- The policy-building loop of `main` over the `argparse`-appended `-a`
groups, accumulating into the `defaultdict(set)`. -/
def buildAllowedAliasesLoop (acc : List (String × List String)) :
    List (List String) → Except String (List (String × List String))
  | [] => .ok acc
  | occ :: rest =>
    match parseOccurrence occ with
    | .error e => .error e
    | .ok (q, al) => buildAllowedAliasesLoop (updatePolicy acc q al) rest

/-- Policy construction in `main`: `args.a` is `None` when no `-a` option
was given, on which iterating raises `TypeError` (re-raised as
`Exception`). -/
def buildAllowedAliases (a : Option (List (List String))) :
    Except String (List (String × List String)) :=
  match a with
  | none => .error "TypeError: NoneType object is not iterable"
  | some occs => buildAllowedAliasesLoop [] occs

/-- Embedding of the body of `main`: validate the worker arguments, build
the policy, evaluate the files in input order and aggregate.  The worker
counts do not change which results are produced, only how they are
computed, so the dispatch step is the ordered per-file composition used by
the serial strategy. -/
def mainRun
    (extraction : String → Except String (List (String × List AsName)))
    (filenames : List String) (a : Option (List (List String)))
    (t p : Option (List Int)) :
    Except String (Nat × List DisallowedImportAlias) :=
  match _validate_args t p with
  | .error e => .error e
  | .ok _ =>
    match buildAllowedAliases a with
    | .error e => .error e
    | .ok policy =>
      mainAggregate
        (filenames.map (fun fn => evaluate_file extraction policy fn false))

/-- Modelled from the spec, for the refinement comparison of the policy
grammar: "the remaining whitespace-separated tokens are its permitted
aliases" — the whitespace-separated tokens of an occurrence string, empty
fields dropped, as Python's argument-free `str.split()` would produce. -/
def specWhitespaceTokens (s : String) : List String :=
  (splitChars Char.isWhitespace s.data []).filter (fun t => ¬ t.isEmpty)


/-- A generator body that never reaches `return` reports `false` in its
returned flag: `evalInner` in non-lazy mode. -/
theorem evalInner_false_snd (fn q : String) (af : List String) (act : AsName)
    (al : List String) : (evalInner fn q af act al false).2 = false := by
  induction al with
  | nil => rfl
  | cons a rest ih =>
    by_cases h : pyEqStrAsName a act
    · simpa [evalInner, h] using ih
    · simpa [evalInner, h] using ih

/-- `evalActuals` in non-lazy mode never reaches `return`. -/
theorem evalActuals_false_snd (fn q : String) (allowed : List String)
    (as_names : List AsName) :
    (evalActuals fn q allowed as_names false).2 = false := by
  induction as_names with
  | nil => rfl
  | cons actual rest ih =>
    simpa [evalActuals, evalInner_false_snd] using ih

/-- `evalNoAllowed` in non-lazy mode never reaches `return`. -/
theorem evalNoAllowed_false_snd (fn q : String) (as_names : List AsName) :
    (evalNoAllowed fn q as_names false).2 = false := by
  induction as_names with
  | nil => rfl
  | cons actual rest ih =>
    simpa [evalNoAllowed] using ih

/-- Non-lazy `evalNoAllowed` yields exactly one violation per Binding, in
Binding order, each built with the empty allowed set. -/
theorem evalNoAllowed_false_fst (fn q : String) (as_names : List AsName) :
    (evalNoAllowed fn q as_names false).1 =
      as_names.map (fun actual =>
        (⟨format_error_message fn q [] actual⟩ : DisallowedImportAlias)) := by
  induction as_names with
  | nil => rfl
  | cons actual rest ih =>
    simp [evalNoAllowed, ih]

/-- Non-lazy `evalInner` yields one violation per allowed alias that
differs from the Binding's alias. -/
theorem evalInner_false_fst (fn q : String) (af : List String) (act : AsName)
    (al : List String) :
    (evalInner fn q af act al false).1 =
      (al.filter (fun a => !(pyEqStrAsName a act))).map
        (fun _ => (⟨format_error_message fn q af act⟩ :
          DisallowedImportAlias)) := by
  induction al with
  | nil => rfl
  | cons a rest ih =>
    by_cases h : pyEqStrAsName a act
    · simpa [evalInner, h, List.filter_cons] using ih
    · simpa [evalInner, h, List.filter_cons] using ih

/-- Non-lazy `evalActuals` is the nested yield: for each Binding, one
violation per non-matching allowed alias. -/
theorem evalActuals_false_fst (fn q : String) (allowed : List String)
    (as_names : List AsName) :
    (evalActuals fn q allowed as_names false).1 =
      as_names.flatMap (fun actual =>
        (allowed.filter (fun a => !(pyEqStrAsName a actual))).map
          (fun _ => (⟨format_error_message fn q allowed actual⟩ :
            DisallowedImportAlias))) := by
  induction as_names with
  | nil => rfl
  | cons actual rest ih =>
    simp [evalActuals, evalInner_false_snd, evalInner_false_fst, ih]

/-- Non-lazy `evaluate` processes the ImportTable entry by entry and
concatenates their violation blocks. -/
theorem evaluate_false_append (policy : List (String × List String))
    (xs ys : List (String × List AsName)) (fn : String) :
    evaluate policy (xs ++ ys) fn false =
      evaluate policy xs fn false ++ evaluate policy ys fn false := by
  induction xs with
  | nil => rfl
  | cons e rest ih =>
    obtain ⟨q, as_names⟩ := e
    by_cases hemp : as_names.isEmpty
    · simpa [evaluate, hemp] using ih
    · cases hlk : lookupPolicy policy q with
      | none =>
        simp [evaluate, hemp, hlk, evalNoAllowed_false_snd, ih]
      | some allowed =>
        by_cases ha : allowed.isEmpty
        · simp [evaluate, hemp, hlk, ha, evalNoAllowed_false_snd, ih]
        · by_cases hset : bindingSetEq allowed as_names
          · simp [evaluate, hemp, hlk, ha, hset, ih]
          · simp [evaluate, hemp, hlk, ha, hset, evalActuals_false_snd, ih]

/-- Lazy `evalNoAllowed` yields the head of the non-lazy output. -/
theorem evalNoAllowed_lazy_fst (fn q : String) (as_names : List AsName) :
    (evalNoAllowed fn q as_names true).1 =
      ((evalNoAllowed fn q as_names false).1).take 1 := by
  cases as_names with
  | nil => rfl
  | cons actual rest => simp [evalNoAllowed]

/-- Lazy `evalNoAllowed` executes `return` exactly when it yielded. -/
theorem evalNoAllowed_lazy_snd (fn q : String) (as_names : List AsName) :
    (evalNoAllowed fn q as_names true).2 =
      !((evalNoAllowed fn q as_names false).1.isEmpty) := by
  cases as_names with
  | nil => rfl
  | cons actual rest => simp [evalNoAllowed]

/-- Lazy `evalInner` yields the head of the non-lazy output. -/
theorem evalInner_lazy_fst (fn q : String) (af : List String) (act : AsName)
    (al : List String) :
    (evalInner fn q af act al true).1 =
      ((evalInner fn q af act al false).1).take 1 := by
  induction al with
  | nil => rfl
  | cons a rest ih =>
    by_cases h : pyEqStrAsName a act
    · simpa [evalInner, h] using ih
    · simp [evalInner, h]

/-- Lazy `evalInner` executes `return` exactly when it yielded. -/
theorem evalInner_lazy_snd (fn q : String) (af : List String) (act : AsName)
    (al : List String) :
    (evalInner fn q af act al true).2 =
      !((evalInner fn q af act al false).1.isEmpty) := by
  induction al with
  | nil => rfl
  | cons a rest ih =>
    by_cases h : pyEqStrAsName a act
    · simpa [evalInner, h] using ih
    · simp [evalInner, h]

/-- Lazy `evalActuals` yields the head of the non-lazy output. -/
theorem evalActuals_lazy_fst (fn q : String) (allowed : List String)
    (as_names : List AsName) :
    (evalActuals fn q allowed as_names true).1 =
      ((evalActuals fn q allowed as_names false).1).take 1 := by
  induction as_names with
  | nil => rfl
  | cons actual rest ih =>
    simp only [evalActuals, evalInner_false_snd, Bool.false_eq_true,
      if_false, apply_ite (f := Prod.fst), evalInner_lazy_snd,
      evalInner_lazy_fst]
    cases hfst : (evalInner fn q allowed actual allowed false).1 with
    | nil => simpa [hfst] using ih
    | cons v vs => simp [hfst]

/-- Lazy `evalActuals` executes `return` exactly when it yielded. -/
theorem evalActuals_lazy_snd (fn q : String) (allowed : List String)
    (as_names : List AsName) :
    (evalActuals fn q allowed as_names true).2 =
      !((evalActuals fn q allowed as_names false).1.isEmpty) := by
  induction as_names with
  | nil => rfl
  | cons actual rest ih =>
    simp only [evalActuals, evalInner_false_snd, Bool.false_eq_true,
      if_false, apply_ite (f := Prod.snd), evalInner_lazy_snd]
    cases hfst : (evalInner fn q allowed actual allowed false).1 with
    | nil => simpa [hfst] using ih
    | cons v vs => simp [hfst]

/-- One `evaluate` entry in lazy mode produces the head of what the same
entry produces in non-lazy mode, followed by the rest only when the entry
produced nothing. -/
theorem branchLazyTake (eT eF : List DisallowedImportAlias × Bool)
    (restT restF : List DisallowedImportAlias)
    (h1 : eT.1 = eF.1.take 1) (h2 : eT.2 = !eF.1.isEmpty)
    (h3 : eF.2 = false) (hrest : restT = restF.take 1) :
    (if eT.2 then eT.1 else eT.1 ++ restT) =
      (if eF.2 then eF.1 else eF.1 ++ restF).take 1 := by
  rw [h3]
  cases hf : eF.1 with
  | nil => simp [h1, h2, hf, hrest]
  | cons v vs => simp [h1, h2, hf]

/-- Lazy `evaluate` yields the head of the non-lazy violation stream. -/
theorem evaluate_lazy_take (policy : List (String × List String))
    (imports : List (String × List AsName)) (fn : String) :
    evaluate policy imports fn true =
      (evaluate policy imports fn false).take 1 := by
  induction imports with
  | nil => rfl
  | cons e rest ih =>
    obtain ⟨q, as_names⟩ := e
    by_cases hemp : as_names.isEmpty
    · simpa [evaluate, hemp] using ih
    · cases hlk : lookupPolicy policy q with
      | none =>
        simp only [evaluate, hemp, Bool.false_eq_true, if_false, hlk]
        exact branchLazyTake _ _ _ _ (evalNoAllowed_lazy_fst fn q as_names)
          (evalNoAllowed_lazy_snd fn q as_names)
          (evalNoAllowed_false_snd fn q as_names) ih
      | some allowed =>
        by_cases ha : allowed.isEmpty
        · simp only [evaluate, hemp, Bool.false_eq_true, if_false, hlk, ha,
            if_true]
          exact branchLazyTake _ _ _ _ (evalNoAllowed_lazy_fst fn q as_names)
            (evalNoAllowed_lazy_snd fn q as_names)
            (evalNoAllowed_false_snd fn q as_names) ih
        · by_cases hset : bindingSetEq allowed as_names
          · simpa [evaluate, hemp, hlk, ha, hset] using ih
          · simp only [evaluate, hemp, Bool.false_eq_true, if_false, hlk,
              ha, hset]
            exact branchLazyTake _ _ _ _
              (evalActuals_lazy_fst fn q allowed as_names)
              (evalActuals_lazy_snd fn q allowed as_names)
              (evalActuals_false_snd fn q allowed as_names) ih

/-- A single ImportTable entry whose qualified name is absent from the
policy or maps to an empty allowed set yields one violation per Binding. -/
theorem evaluate_single_noallowed (policy : List (String × List String))
    (q fn : String) (as_names : List AsName)
    (h : lookupPolicy policy q = none ∨ lookupPolicy policy q = some []) :
    evaluate policy [(q, as_names)] fn false =
      as_names.map (fun actual =>
        (⟨format_error_message fn q [] actual⟩ : DisallowedImportAlias)) := by
  cases as_names with
  | nil => rfl
  | cons b rest =>
    cases h with
    | inl h' =>
      simp [evaluate, h', evalNoAllowed_false_snd, evalNoAllowed_false_fst]
    | inr h' =>
      simp [evaluate, h', evalNoAllowed_false_snd, evalNoAllowed_false_fst]

/-- A single ImportTable entry whose non-empty allowed set differs from the
observed Binding set yields the full nested-loop block. -/
theorem evaluate_single_mismatch (policy : List (String × List String))
    (q fn : String) (as_names : List AsName) (allowed : List String)
    (hl : lookupPolicy policy q = some allowed) (hne : allowed ≠ [])
    (hneq : bindingSetEq allowed as_names = false) :
    evaluate policy [(q, as_names)] fn false =
      as_names.flatMap (fun actual =>
        (allowed.filter (fun a => !(pyEqStrAsName a actual))).map
          (fun _ => (⟨format_error_message fn q allowed actual⟩ :
            DisallowedImportAlias))) := by
  cases as_names with
  | nil => rfl
  | cons b rest =>
    have hae : allowed.isEmpty = false := by
      cases allowed with
      | nil => exact absurd rfl hne
      | cons _ _ => rfl
    simp [evaluate, hl, hae, hneq, evalActuals_false_snd,
      evalActuals_false_fst]

/-- A single ImportTable entry whose allowed set equals the observed
Binding set yields nothing. -/
theorem evaluate_single_skip (policy : List (String × List String))
    (q fn : String) (as_names : List AsName) (allowed : List String)
    (hl : lookupPolicy policy q = some allowed) (hne : allowed ≠ [])
    (hset : bindingSetEq allowed as_names = true) :
    evaluate policy [(q, as_names)] fn false = [] := by
  cases as_names with
  | nil => rfl
  | cons b rest =>
    have hae : allowed.isEmpty = false := by
      cases allowed with
      | nil => exact absurd rfl hne
      | cons _ _ => rfl
    simp [evaluate, hl, hae, hset]

/-- C2: for a qualified name whose non-empty policy entry is not exactly
equal to the observed Binding set, `evaluate` yields, for each observed
Binding in order, one Violation per allowed alias differing from that
Binding under alias-only equality — so a Binding differing from all `k`
allowed aliases contributes exactly `k` Violations.  (An entry whose
allowed set is empty falls under the absent-or-empty regime of C3.) -/
theorem evaluate_mismatched_entry_nested_violations
    (policy : List (String × List String))
    (pre post : List (String × List AsName)) (q fn : String)
    (as_names : List AsName) (allowed : List String)
    (hl : lookupPolicy policy q = some allowed) (hne : allowed ≠ [])
    (hneq : bindingSetEq allowed as_names = false) :
    evaluate policy (pre ++ (q, as_names) :: post) fn false =
      evaluate policy pre fn false ++
        (as_names.flatMap (fun actual =>
          (allowed.filter (fun a => !(pyEqStrAsName a actual))).map
            (fun _ => (⟨format_error_message fn q allowed actual⟩ :
              DisallowedImportAlias))) ++
          evaluate policy post fn false) := by
  rw [evaluate_false_append,
    show (q, as_names) :: post = [(q, as_names)] ++ post from rfl,
    evaluate_false_append,
    evaluate_single_mismatch policy q fn as_names allowed hl hne hneq]

/-- Witness for C2: allowed set `{x, y}` and a single Binding `pd`
matching neither produce exactly two Violations. -/
theorem evaluate_mismatched_entry_nested_violations_witness :
    (evaluate [("pandas", ["x", "y"])]
      [("pandas", [AsName.mk "pandas" "pd" 1])] "f.py" false).length = 2 := by
  have h := evaluate_mismatched_entry_nested_violations
    [("pandas", ["x", "y"])] [] [] "pandas" "f.py"
    [AsName.mk "pandas" "pd" 1] ["x", "y"] (by decide) (by decide) (by decide)
  simp only [List.nil_append] at h
  rw [h]
  decide

/-- C3: for a qualified name absent from the policy or mapping to an empty
allowed set, non-lazy `evaluate` yields exactly one Violation per observed
Binding, in Binding iteration order, each formatted with the empty allowed
set — whose message states that no aliases are allowed. -/
theorem evaluate_no_allowed_entry_violations
    (policy : List (String × List String))
    (pre post : List (String × List AsName)) (q fn : String)
    (as_names : List AsName)
    (h : lookupPolicy policy q = none ∨ lookupPolicy policy q = some []) :
    evaluate policy (pre ++ (q, as_names) :: post) fn false =
      evaluate policy pre fn false ++
        (as_names.map (fun actual =>
          (⟨format_error_message fn q [] actual⟩ : DisallowedImportAlias)) ++
          evaluate policy post fn false) ∧
    ∀ actual : AsName, ∃ s : String,
      format_error_message fn q [] actual =
        s ++ "There are no allowed aliases." := by
  constructor
  · rw [evaluate_false_append,
      show (q, as_names) :: post = [(q, as_names)] ++ post from rfl,
      evaluate_false_append,
      evaluate_single_noallowed policy q fn as_names h]
  · exact fun actual => ⟨_, rfl⟩

/-- Witness for C3: empty policy and one `pandas as pa` Binding produce
exactly one Violation. -/
theorem evaluate_no_allowed_entry_violations_witness :
    (evaluate [] [("pandas", [AsName.mk "pandas" "pa" 1])] "g.py"
      false).length = 1 := by
  have h := (evaluate_no_allowed_entry_violations []
    [] [] "pandas" "g.py" [AsName.mk "pandas" "pa" 1] (Or.inl rfl)).1
  simp only [List.nil_append] at h
  rw [h]
  decide

/-- C4: a qualified name whose allowed alias set exactly equals the
observed Binding set (as sets, under alias-only equality) contributes zero
Violations, and the skip happens only on exact set equality: whenever the
sets differ and there is at least one Binding, the entry contributes at
least one Violation (so a Binding set with one approved and one unapproved
alias suppresses nothing). -/
theorem evaluate_set_equality_skip
    (policy : List (String × List String))
    (pre post : List (String × List AsName)) (q fn : String)
    (as_names : List AsName) (allowed : List String)
    (hl : lookupPolicy policy q = some allowed) (hne : allowed ≠ []) :
    (bindingSetEq allowed as_names = true →
      evaluate policy (pre ++ (q, as_names) :: post) fn false =
        evaluate policy pre fn false ++ evaluate policy post fn false) ∧
    (bindingSetEq allowed as_names = false → as_names ≠ [] →
      evaluate policy [(q, as_names)] fn false ≠ []) := by
  constructor
  · intro hset
    rw [evaluate_false_append,
      show (q, as_names) :: post = [(q, as_names)] ++ post from rfl,
      evaluate_false_append,
      evaluate_single_skip policy q fn as_names allowed hl hne hset,
      List.nil_append]
  · intro hneq hbne hnil
    rw [evaluate_single_mismatch policy q fn as_names allowed hl hne hneq,
      List.flatMap_eq_nil_iff] at hnil
    have hfilter : ∀ actual ∈ as_names, ∀ a ∈ allowed,
        pyEqStrAsName a actual = true := by
      intro actual hmem a ha
      have h1 := hnil actual hmem
      rw [List.map_eq_nil_iff, List.filter_eq_nil_iff] at h1
      simpa using h1 a ha
    have hset : bindingSetEq allowed as_names = true := by
      cases as_names with
      | nil => exact absurd rfl hbne
      | cons b0 brest =>
        cases allowed with
        | nil => exact absurd rfl hne
        | cons a0 arest =>
          simp only [bindingSetEq, Bool.and_eq_true, List.all_eq_true,
            List.any_eq_true]
          constructor
          · intro s hs
            exact ⟨b0, List.mem_cons_self _ _,
              hfilter b0 (List.mem_cons_self _ _) s hs⟩
          · intro b hb
            exact ⟨a0, List.mem_cons_self _ _,
              hfilter b hb a0 (List.mem_cons_self _ _)⟩
    rw [hset] at hneq
    exact Bool.noConfusion hneq

/-- Witness for C4: allowed set `{np}` with the single observed Binding
`np` produces zero Violations, while replacing the Binding by `n` produces
at least one. -/
theorem evaluate_set_equality_skip_witness :
    evaluate [("numpy", ["np"])] [("numpy", [AsName.mk "numpy" "np" 3])]
      "h.py" false = [] ∧
    evaluate [("numpy", ["np"])] [("numpy", [AsName.mk "numpy" "n" 3])]
      "h.py" false ≠ [] := by
  constructor
  · have h := (evaluate_set_equality_skip [("numpy", ["np"])] [] []
      "numpy" "h.py" [AsName.mk "numpy" "np" 3] ["np"] (by decide)
      (by decide)).1 (by decide)
    simpa using h
  · exact (evaluate_set_equality_skip [("numpy", ["np"])] [] []
      "numpy" "h.py" [AsName.mk "numpy" "n" 3] ["np"] (by decide)
      (by decide)).2 (by decide) (by decide)

/-- C5: lazy evaluation yields the head of the non-lazy violation stream —
at most one Violation for the whole file, and exactly one whenever the
non-lazy stream is non-empty (in particular when it has two or more). -/
theorem evaluate_lazy_first_violation_only
    (allowed_aliases : List (String × List String))
    (imports : List (String × List AsName)) (filename : String) :
    evaluate allowed_aliases imports filename true =
      (evaluate allowed_aliases imports filename false).take 1 ∧
    (evaluate allowed_aliases imports filename true).length ≤ 1 := by
  refine ⟨evaluate_lazy_take _ _ _, ?_⟩
  rw [evaluate_lazy_take, List.length_take]
  exact min_le_left _ _

/-- C6: two `AsName`s with the same alias are equal under the Python
equality, hash alike for every string hash, are interchangeable in
set-membership and set-equality tests against an allowed-alias set, and a
Binding compares equal to a plain string exactly when the string equals
its alias. -/
theorem asname_alias_only_equality (a b : AsName)
    (h : a.alias_ = b.alias_) :
    AsName.pyEq a b = true ∧
    (∀ strHash : String → Nat, a.pyHash strHash = b.pyHash strHash) ∧
    (∀ allowed : List String,
      (allowed.any (fun s => pyEqStrAsName s a)) =
        (allowed.any (fun s => pyEqStrAsName s b)) ∧
      ∀ l : List AsName,
        bindingSetEq allowed (a :: l) = bindingSetEq allowed (b :: l)) ∧
    (∀ s : String, pyEqStrAsName s a = true ↔ s = a.alias_) := by
  refine ⟨?_, ?_, ?_, ?_⟩
  · simp [AsName.pyEq, pyEqStrAsName, h]
  · intro strHash
    simp [AsName.pyHash, h]
  · intro allowed
    constructor
    · simp [pyEqStrAsName, h]
    · intro l
      simp [bindingSetEq, pyEqStrAsName, h]
  · intro s
    simp [pyEqStrAsName]

/-- Witness for C6: `np` bound for `numpy` at line 1 and `np` bound for
`pandas` at line 7 are equal, hash alike, and compare equal to the plain
string `np`. -/
theorem asname_alias_only_equality_witness :
    AsName.pyEq (AsName.mk "numpy" "np" 1) (AsName.mk "pandas" "np" 7) =
      true ∧
    (AsName.mk "numpy" "np" 1).pyHash String.length =
      (AsName.mk "pandas" "np" 7).pyHash String.length ∧
    (pyEqStrAsName "np" (AsName.mk "numpy" "np" 1) = true ↔
      "np" = (AsName.mk "numpy" "np" 1).alias_) :=
  ⟨(asname_alias_only_equality (AsName.mk "numpy" "np" 1)
      (AsName.mk "pandas" "np" 7) rfl).1,
   (asname_alias_only_equality (AsName.mk "numpy" "np" 1)
      (AsName.mk "pandas" "np" 7) rfl).2.1 String.length,
   (asname_alias_only_equality (AsName.mk "numpy" "np" 1)
      (AsName.mk "pandas" "np" 7) rfl).2.2.2 "np"⟩

/-- C1 evidence: the aggregation loop of `main` runs `break` — not
`continue` — when a file's stream raises `StopIteration` at once (zero
violations), so with an empty policy and the files `[clean.py, bad.py]`,
where `bad.py` binds `pandas as pd`, the run exits 0 and reports nothing
although `bad.py` produced a violation; the specification requires exit
status 1 and the violation reported. -/
theorem main_exit_code_masks_later_file_violations :
    mainAggregate
      [Except.ok [],
       Except.ok (evaluate []
         [("pandas", [AsName.mk "pandas" "pd" 1])] "bad.py" false)] =
      Except.ok (0, []) ∧
    evaluate [] [("pandas", [AsName.mk "pandas" "pd" 1])] "bad.py" false ≠
      [] := by
  exact ⟨rfl, by decide⟩

/-- C10: when extraction fails for a file (unreadable or unparsable
input), consuming that file's EvaluationResult from `evaluate_file`
propagates the failure as an error instead of yielding an empty
(zero-violation) sequence. -/
theorem evaluate_file_propagates_extraction_failure
    (extraction : String → Except String (List (String × List AsName)))
    (allowed_aliases : List (String × List String)) (filepath : String)
    (lazy : Bool) (e : String) (h : extraction filepath = .error e) :
    evaluate_file extraction allowed_aliases filepath lazy =
      Except.error e ∧
    ∀ l : List DisallowedImportAlias,
      evaluate_file extraction allowed_aliases filepath lazy ≠
        Except.ok l := by
  constructor
  · simp [evaluate_file, h]
  · intro l
    simp [evaluate_file, h]

/-- Witness for C10: an extraction oracle failing with a syntax error. -/
theorem evaluate_file_propagates_extraction_failure_witness :
    evaluate_file (fun _ => Except.error "SyntaxError: invalid syntax") []
      "broken.py" false = Except.error "SyntaxError: invalid syntax" :=
  (evaluate_file_propagates_extraction_failure
    (fun _ => Except.error "SyntaxError: invalid syntax") [] "broken.py"
    false "SyntaxError: invalid syntax" rfl).1

/-- C8 counterexample: a policy entry with a symbol but no alias token
(`-a "numpy"`) is not fatal — the policy build succeeds mapping `numpy` to
an empty allowed set, and a full run with that entry processes its files
and exits 0 with no error. -/
theorem malformed_policy_entry_not_fatal :
    buildAllowedAliases (some [["numpy"]]) =
      Except.ok [("numpy", [])] ∧
    mainRun (fun _ => Except.ok []) ["f.py"] (some [["numpy"]]) none none =
      Except.ok (0, []) := by
  exact ⟨rfl, rfl⟩

/-- C8 amended: selecting both parallelism modes, or a negative worker
count, raises a fatal configuration error whose outcome is independent of
the extraction oracle and of the file list — i.e. before any file is
processed and with no partial output — while a policy entry with a symbol
but no alias tokens is accepted silently with an empty allowed set. -/
theorem config_error_handling_amended
    (extraction : String → Except String (List (String × List AsName)))
    (filenames : List String) (a : Option (List (List String))) :
    (∀ tl pl : List Int,
      mainRun extraction filenames a (some tl) (some pl) =
        Except.error "-t and -p are mutually exclusive.") ∧
    (∀ x : Int, x < 0 →
      mainRun extraction filenames a (some [x]) none =
        Except.error "-t cannot take a value less than 0.") ∧
    (∀ x : Int, x < 0 →
      mainRun extraction filenames a none (some [x]) =
        Except.error "-p cannot take a value less than 0.") ∧
    buildAllowedAliases (some [["numpy"]]) = Except.ok [("numpy", [])] := by
  refine ⟨?_, ?_, ?_, rfl⟩
  · intro tl pl
    simp [mainRun, _validate_args]
  · intro x hx
    simp [mainRun, _validate_args, validateWorkerArg, hx]
  · intro x hx
    simp [mainRun, _validate_args, validateWorkerArg, hx]

/-- Witness for C8 amended: concrete runs hitting each configuration
error. -/
theorem config_error_handling_amended_witness :
    mainRun (fun _ => Except.ok []) ["f.py"] none (some [1]) (some [2]) =
      Except.error "-t and -p are mutually exclusive." ∧
    mainRun (fun _ => Except.ok []) ["f.py"] none (some [-1]) none =
      Except.error "-t cannot take a value less than 0." ∧
    mainRun (fun _ => Except.ok []) ["f.py"] none none (some [-1]) =
      Except.error "-p cannot take a value less than 0." :=
  ⟨(config_error_handling_amended (fun _ => Except.ok []) ["f.py"]
      none).1 [1] [2],
   (config_error_handling_amended (fun _ => Except.ok []) ["f.py"]
      none).2.1 (-1) (by decide),
   (config_error_handling_amended (fun _ => Except.ok []) ["f.py"]
      none).2.2.1 (-1) (by decide)⟩

/-- C9 counterexample: for the occurrence `"numpy  np"` (two consecutive
spaces), the whitespace-separated tokens after the symbol are exactly
`["np"]`, but the code splits on single space characters only, so the
recorded alias set is `["", "np"]`: the empty string becomes a permitted
alias, which is not a whitespace-separated token of the occurrence. -/
theorem policy_tokenization_space_split_counterexample :
    buildAllowedAliases (some [["numpy  np"]]) =
      Except.ok [("numpy", ["", "np"])] ∧
    specWhitespaceTokens "numpy  np" = ["numpy", "np"] ∧
    (["", "np"] : List String) ≠ ["np"] := by
  exact ⟨rfl, rfl, by decide⟩

/-- An alias already recorded stays recorded through `set.add`. -/
theorem mem_listInsert_left (xs : List String) (y a : String)
    (h : a ∈ xs) : a ∈ listInsert xs y := by
  unfold listInsert
  split
  · exact h
  · exact List.mem_append_left _ h

/-- An alias already recorded stays recorded through `set.update`. -/
theorem mem_listUnion_left (ys : List String) (xs : List String)
    (a : String) (h : a ∈ xs) : a ∈ listUnion xs ys := by
  induction ys generalizing xs with
  | nil => exact h
  | cons y ys ih => exact ih (listInsert xs y) (mem_listInsert_left xs y a h)

/-- An alias recorded for a symbol survives any further
`defaultdict` update. -/
theorem updatePolicy_mono (acc : List (String × List String))
    (q' : String) (al : List String) (q a : String)
    (h : a ∈ (lookupPolicy acc q).getD []) :
    a ∈ (lookupPolicy (updatePolicy acc q' al) q).getD [] := by
  induction acc with
  | nil => simp [lookupPolicy] at h
  | cons kv rest ih =>
    obtain ⟨k, v⟩ := kv
    by_cases hk : k == q'
    · by_cases hq : k == q
      · simp only [lookupPolicy, hq, if_true, Option.getD_some] at h
        simp only [updatePolicy, hk, if_true, lookupPolicy, hq,
          Option.getD_some]
        exact mem_listUnion_left al v a h
      · simp only [lookupPolicy, hq, if_false] at h
        simpa only [updatePolicy, hk, if_true, lookupPolicy, hq,
          if_false] using h
    · by_cases hq : k == q
      · simp only [lookupPolicy, hq, if_true, Option.getD_some] at h
        simpa only [updatePolicy, hk, if_false, lookupPolicy, hq,
          Option.getD_some] using h
      · simp only [lookupPolicy, hq, if_false] at h
        simpa only [updatePolicy, hk, if_false, lookupPolicy, hq,
          if_false] using ih h

/-- Aliases recorded in the accumulator are still recorded after the
policy loop processes any further occurrences. -/
theorem buildAllowedAliasesLoop_mono (occs : List (List String)) :
    ∀ acc P, buildAllowedAliasesLoop acc occs = Except.ok P →
    ∀ q a, a ∈ (lookupPolicy acc q).getD [] →
      a ∈ (lookupPolicy P q).getD [] := by
  induction occs with
  | nil =>
    intro acc P h q a ha
    simp only [buildAllowedAliasesLoop, Except.ok.injEq] at h
    rwa [← h]
  | cons occ rest ih =>
    intro acc P h q a ha
    cases hp : parseOccurrence occ with
    | error e => simp [buildAllowedAliasesLoop, hp] at h
    | ok qa =>
      obtain ⟨q', al⟩ := qa
      simp only [buildAllowedAliasesLoop, hp] at h
      exact ih _ _ h q a (updatePolicy_mono acc q' al q a ha)

/-- C9 amended: each `-a` occurrence is interpreted from its first element
only (any further elements are ignored); that element is stripped and
split on single space characters, the first field being the symbol and the
remaining fields — including empty fields from consecutive spaces — its
permitted aliases; and occurrences of the same symbol accumulate aliases
as a union, never replacing earlier ones. -/
theorem policy_accumulation_amended :
    (∀ s : String, ∀ rest : List String,
      buildAllowedAliases (some [s :: rest]) =
        buildAllowedAliases (some [[s]])) ∧
    (∀ s q : String, ∀ al : List String,
      pySplitOnSpace (pyStrip s) = q :: al →
      buildAllowedAliases (some [[s]]) =
        Except.ok [(q, listUnion [] al)]) ∧
    (∀ occs : List (List String),
      ∀ acc P : List (String × List String),
      buildAllowedAliasesLoop acc occs = Except.ok P →
      ∀ q a, a ∈ (lookupPolicy acc q).getD [] →
        a ∈ (lookupPolicy P q).getD []) := by
  refine ⟨fun s rest => rfl, ?_, buildAllowedAliasesLoop_mono⟩
  intro s q al h
  simp only [buildAllowedAliases, buildAllowedAliasesLoop, parseOccurrence,
    h]
  rfl

/-- Witness for C9 amended: a trailing `argparse` element is ignored, the
first element's fields become symbol and aliases, and an alias recorded by
one occurrence survives a later occurrence of the same symbol. -/
theorem policy_accumulation_amended_witness :
    buildAllowedAliases (some [["numpy np", "ignored"]]) =
      buildAllowedAliases (some [["numpy np"]]) ∧
    buildAllowedAliases (some [["numpy np"]]) =
      Except.ok [("numpy", ["np"])] ∧
    "np" ∈ (lookupPolicy [("numpy", ["np", "n"])] "numpy").getD [] := by
  refine ⟨policy_accumulation_amended.1 "numpy np" ["ignored"], ?_, ?_⟩
  · rw [policy_accumulation_amended.2.1 "numpy np" "numpy" ["np"]
      (by decide)]
    rfl
  · exact policy_accumulation_amended.2.2 [["numpy n"]]
      [("numpy", ["np"])] [("numpy", ["np", "n"])] (by decide) "numpy" "np"
      (by decide)
